import Mathlib

/-!
Verification of the Smart Movie Recommender core (src/aw.py) against its
natural-language specification.

The source is a pandas/sklearn program.  The shallow embedding below models:
  a DataFrame row after load_data as a Movie record (numeric cells coerced
  by pd.to_numeric with errors set to coerce become Option values: none is
  NaN; Genre and Star1..Star4 are filled with the empty string at load,
  Director and Overview are not);
  Python lists as List, floats as the reals, IMDB ratings as rationals
  (the attribute path never leaves the rationals);
  the stable sorts of Python sorted and pandas sort_values as insertion
  sort with the corresponding total relation (a stable sort is extensionally
  determined by sortedness, stability and permutation);
  sklearn TfidfVectorizer with english stop words and the default word
  token pattern (runs of at least two word characters, lowercased), smooth
  idf, and l2 normalisation, over the reals;
  numpy/pandas NaN propagation through string concatenation and the
  sklearn errors on NaN documents and on an empty vocabulary as Option.
-/

namespace AW

/-- A catalog row after load_data's cleaning: Released_Year and IMDB_Rating
have been through pd.to_numeric with coercion (none = NaN), Genre and the
four star fields have been filled with the empty string, Series_Title is
present (rows without it were dropped), Director, Overview and Poster_Link
keep their possibly-missing cell. -/
structure Movie where
  title : String
  year : Option Int
  rating : Option ℚ
  genre : String
  director : Option String
  star1 : String
  star2 : String
  star3 : String
  star4 : String
  overview : Option String
  poster : Option String
deriving Repr, DecidableEq

/-- Placeholder movie used only as the default of List.getD. -/
def noMovie : Movie :=
  { title := "", year := none, rating := none, genre := "", director := none,
    star1 := "", star2 := "", star3 := "", star4 := "",
    overview := none, poster := none }

/-- A raw dataset row before load_data: every cell may be missing.  Numeric
cells are modelled by the value pd.to_numeric later coerces them to (none is
a blank or unparseable cell, i.e. NaN). -/
structure Row where
  title : Option String
  year : Option Int
  rating : Option ℚ
  genre : Option String
  director : Option String
  star1 : Option String
  star2 : Option String
  star3 : Option String
  star4 : Option String
  overview : Option String
  poster : Option String
deriving Repr, DecidableEq

/-- The cleaning of one kept row: Genre and Star1..Star4 filled with the
empty string, the rest kept as is (df lines 12-15 of load_data). -/
def cleanRow (r : Row) : Movie :=
  { title := r.title.getD "",
    year := r.year,
    rating := r.rating,
    genre := r.genre.getD "",
    director := r.director,
    star1 := r.star1.getD "",
    star2 := r.star2.getD "",
    star3 := r.star3.getD "",
    star4 := r.star4.getD "",
    overview := r.overview,
    poster := r.poster }

/-- load_data: df.dropna(subset of Series_Title) drops exactly the rows whose
title cell is missing, then the numeric coercions and fillna of Genre and the
star columns are applied columnwise.  No row makes it error out. -/
def load_data (rows : List Row) : List Movie :=
  (rows.filter (fun r => r.title.isSome)).map cleanRow

/-- Does the pattern occur at the head of the haystack (helper for the Python
substring test). -/
def subAt : List Char → List Char → Bool
  | _, [] => true
  | [], _ :: _ => false
  | c :: h, p :: q => c == p && subAt h q

/-- Does the pattern occur anywhere in the haystack (helper for the Python
substring test). -/
def hasSubstr : List Char → List Char → Bool
  | [], p => subAt [] p
  | c :: h, p => subAt (c :: h) p || hasSubstr h p

/-- The Python expression p in s on strings: substring containment. -/
def strContains (hay pat : String) : Bool :=
  hasSubstr hay.data pat.data

/-- recommend_attributes before ranking: the source's chain of conditional
dataframe filters (lines 50-62 of src/aw.py).  A Python list is truthy
exactly when non-empty; comparing NaN with >= is False, so a missing rating
never passes the last filter, and a missing year never equals a member of
years. -/
def attrFiltered (df : List Movie) (genres stars : List String)
    (years : List Int) (rating : ℚ) : List Movie :=
  let filtered := df
  let filtered :=
    if genres.isEmpty then filtered
    else filtered.filter (fun m => genres.any (fun g => strContains m.genre g))
  let filtered :=
    if stars.isEmpty then filtered
    else filtered.filter (fun m =>
      [m.star1, m.star2, m.star3, m.star4].any (fun star => stars.contains star))
  let filtered :=
    if years.isEmpty then filtered
    else filtered.filter (fun m =>
      match m.year with
      | some y => years.contains y
      | none => false)
  filtered.filter (fun m =>
    match m.rating with
    | some x => decide (rating ≤ x)
    | none => false)

/-- The sort key of sort_values by IMDB_Rating.  Every movie reaching the
sort has a measured rating (the rating filter ran first), so the default is
never read. -/
def ratingKey (m : Movie) : ℚ := m.rating.getD 0

/-- pandas sort_values by IMDB_Rating with ascending set to False.  The
model fixes the tie order to the original row order (insertion sort);
pandas runs its default quicksort kind here, which does NOT guarantee any
tie order, so only consequences insensitive to the order of equal ratings
(membership, descending sortedness, length) may be read off this model. -/
def sortDescByRating (l : List Movie) : List Movie :=
  List.insertionSort (fun a b => ratingKey b ≤ ratingKey a) l

/-- recommend_attributes (lines 49-64 of src/aw.py): filter, sort descending
by rating, truncate with head(10). -/
def recommend_attributes (df : List Movie) (genres stars : List String)
    (years : List Int) (rating : ℚ) : List Movie :=
  (sortDescByRating (attrFiltered df genres stars years rating)).take 10

/-- The combined pass predicate exactly as the spec claims it: a conjunction
of the genre any-substring test, the star any-exact-match test, the year
membership test and the rating threshold test, the first three inactive on an
empty selection.  Written from the claim text, to be compared with the
source's sequential filters. -/
def claimPass (genres stars : List String) (years : List Int) (minRating : ℚ)
    (m : Movie) : Bool :=
  (genres.isEmpty || genres.any (fun g => strContains m.genre g))
  && (stars.isEmpty ||
      [m.star1, m.star2, m.star3, m.star4].any (fun star => stars.contains star))
  && (years.isEmpty ||
      (match m.year with
       | some y => years.contains y
       | none => false))
  && (match m.rating with
      | some x => decide (minRating ≤ x)
      | none => false)

/-- The sklearn english stop word list (sklearn.feature_extraction.text,
frozenset ENGLISH_STOP_WORDS), passed to TfidfVectorizer by
build_similarity_matrix. -/
def englishStopWords : List String :=
  ["a", "about", "above", "across", "after", "afterwards", "again", "against",
   "all", "almost", "alone", "along", "already", "also", "although", "always",
   "am", "among", "amongst", "amoungst", "amount", "an", "and", "another",
   "any", "anyhow", "anyone", "anything", "anyway", "anywhere", "are",
   "around", "as", "at", "back", "be", "became", "because", "become",
   "becomes", "becoming", "been", "before", "beforehand", "behind", "being",
   "below", "beside", "besides", "between", "beyond", "bill", "both",
   "bottom", "but", "by", "call", "can", "cannot", "cant", "co", "con",
   "could", "couldnt", "cry", "de", "describe", "detail", "do", "done",
   "down", "due", "during", "each", "eg", "eight", "either", "eleven",
   "else", "elsewhere", "empty", "enough", "etc", "even", "ever", "every",
   "everyone", "everything", "everywhere", "except", "few", "fifteen",
   "fifty", "fill", "find", "fire", "first", "five", "for", "former",
   "formerly", "forty", "found", "four", "from", "front", "full", "further",
   "get", "give", "go", "had", "has", "hasnt", "have", "he", "hence", "her",
   "here", "hereafter", "hereby", "herein", "hereupon", "hers", "herself",
   "him", "himself", "his", "how", "however", "hundred", "i", "ie", "if",
   "in", "inc", "indeed", "interest", "into", "is", "it", "its", "itself",
   "keep", "last", "latter", "latterly", "least", "less", "ltd", "made",
   "many", "may", "me", "meanwhile", "might", "mill", "mine", "more",
   "moreover", "most", "mostly", "move", "much", "must", "my", "myself",
   "name", "namely", "neither", "never", "nevertheless", "next", "nine",
   "no", "nobody", "none", "noone", "nor", "not", "nothing", "now",
   "nowhere", "of", "off", "often", "on", "once", "one", "only", "onto",
   "or", "other", "others", "otherwise", "our", "ours", "ourselves", "out",
   "over", "own", "part", "per", "perhaps", "please", "put", "rather", "re",
   "same", "see", "seem", "seemed", "seeming", "seems", "serious", "several",
   "she", "should", "show", "side", "since", "sincere", "six", "sixty",
   "so", "some", "somehow", "someone", "something", "sometime", "sometimes",
   "somewhere", "still", "such", "system", "take", "ten", "than", "that",
   "the", "their", "them", "themselves", "then", "thence", "there",
   "thereafter", "thereby", "therefore", "therein", "thereupon", "these",
   "they", "thick", "thin", "third", "this", "those", "though", "three",
   "through", "throughout", "thru", "thus", "to", "together", "too", "top",
   "toward", "towards", "twelve", "twenty", "two", "un", "under", "until",
   "up", "upon", "us", "very", "via", "was", "we", "well", "were", "what",
   "whatever", "when", "whence", "whenever", "where", "whereafter",
   "whereas", "whereby", "wherein", "whereupon", "wherever", "whether",
   "which", "while", "whither", "who", "whoever", "whole", "whom", "whose",
   "why", "will", "with", "within", "without", "would", "yet", "you",
   "your", "yours", "yourself", "yourselves"]

/-- A word character of the default sklearn token pattern (backslash-w):
letters, digits or underscore. -/
def isWordChar (c : Char) : Bool := c.isAlphanum || c == '_'

/-- Helper of wordRuns: the run in progress and the completed runs. -/
def wordRunsAux (l : List Char) : List Char × List (List Char) :=
  l.foldr
    (fun c acc =>
      if isWordChar c then (c :: acc.1, acc.2)
      else ([], if acc.1.isEmpty then acc.2 else acc.1 :: acc.2))
    ([], [])

/-- The maximal runs of word characters of a character list, in order. -/
def wordRuns (l : List Char) : List (List Char) :=
  let acc := wordRunsAux l
  if acc.1.isEmpty then acc.2 else acc.1 :: acc.2

/-- The sklearn word analyzer of TfidfVectorizer with english stop words:
lowercase, take maximal word-character runs of length at least two (the
default token pattern), and drop stop words.  Lowercasing is applied to the
character list (String.toLower maps Char.toLower over exactly these
characters). -/
def tokenize (s : String) : List String :=
  (((wordRuns (s.data.map Char.toLower)).map (fun cs => String.mk cs)).filter
    (fun t => 2 ≤ t.length && !(englishStopWords.contains t)))

/-- Lexicographic comparison of character lists (the order Python sorts the
fitted vocabulary in). -/
def strLeChars : List Char → List Char → Bool
  | [], _ => true
  | _ :: _, [] => false
  | a :: s, b :: t => if a < b then true else if b < a then false else strLeChars s t

/-- The vocabulary sklearn fits: the distinct tokens of all documents, in
sorted order. -/
def vocab (docs : List String) : List String :=
  List.insertionSort (fun a b => strLeChars a.data b.data = true)
    ((docs.map tokenize).flatten.dedup)

/-- Term frequency: occurrences of the term among the document's tokens. -/
def tf (d t : String) : ℕ := (tokenize d).count t

/-- Document frequency: how many documents contain the term. -/
def docFreq (docs : List String) (t : String) : ℕ :=
  (docs.filter (fun d => (tokenize d).contains t)).length

/-- The smooth idf weight of sklearn TfidfVectorizer:
log((1 + n) / (1 + df)) + 1. -/
noncomputable def idf (docs : List String) (t : String) : ℝ :=
  Real.log ((1 + (docs.length : ℝ)) / (1 + (docFreq docs t : ℝ))) + 1

/-- Dot product of two equal-length real vectors held as lists. -/
def dotL : List ℝ → List ℝ → ℝ
  | a :: u, b :: v => a * b + dotL u v
  | _, _ => 0

/-- Row l2 normalisation as sklearn does it: a zero row stays zero, any
other row is divided by its euclidean norm. -/
noncomputable def l2normalize (v : List ℝ) : List ℝ :=
  if Real.sqrt (dotL v v) = 0 then v
  else v.map (fun x => x / Real.sqrt (dotL v v))

/-- The raw (unnormalised) tfidf vector of a document over the fitted
vocabulary. -/
noncomputable def tfidfVec (docs : List String) (d : String) : List ℝ :=
  (vocab docs).map (fun t => (tf d t : ℝ) * idf docs t)

/-- tfidf.fit_transform: one l2-normalised tfidf row per document. -/
noncomputable def tfidfMatrix (docs : List String) : List (List ℝ) :=
  docs.map (fun d => l2normalize (tfidfVec docs d))

/-- sklearn cosine_similarity: normalise every row, then all pairwise dot
products. -/
noncomputable def cosine_similarity (X : List (List ℝ)) : List (List ℝ) :=
  (X.map l2normalize).map (fun u => (X.map l2normalize).map (fun v => dotL u v))

/-- The metadata column built at line 22 of src/aw.py: Overview (filled with
the empty string) + Genre + Director + the four stars, space separated.
Director was never filled at load, and pandas propagates a missing value
through object-dtype concatenation, so a movie with a missing director gets
a NaN metadata cell (modelled as none); sklearn then refuses the NaN
document. -/
def metadata (m : Movie) : Option String :=
  match m.director with
  | none => none
  | some d =>
    some ((m.overview.getD "") ++ " " ++ m.genre ++ " " ++ d ++ " " ++
      m.star1 ++ " " ++ m.star2 ++ " " ++ m.star3 ++ " " ++ m.star4)

/-- The Feature Document exactly as the spec words it: the space-joined
concatenation of overview, genre, director and the four cast fields, each
defaulted to the empty string when absent.  Written from the claim text, to
be compared with the source's metadata. -/
def metadataSpec (m : Movie) : String :=
  (m.overview.getD "") ++ " " ++ m.genre ++ " " ++ (m.director.getD "") ++
    " " ++ m.star1 ++ " " ++ m.star2 ++ " " ++ m.star3 ++ " " ++ m.star4

/-- Sequence a list of optional values: some list iff every entry is some. -/
def allSome {α : Type} : List (Option α) → Option (List α)
  | [] => some []
  | none :: _ => none
  | some a :: t => (allSome t).map (fun l => a :: l)

/-- The metadata column of a catalog, as one optional list: none as soon as
one movie's metadata cell is NaN (sklearn raises on a NaN document). -/
def docsOf (cat : List Movie) : Option (List String) :=
  allSome (cat.map metadata)

/-- build_similarity_matrix (lines 21-26 of src/aw.py): build the metadata
column, fit TfidfVectorizer with english stop words and return the cosine
similarity matrix.  none models the sklearn errors: a NaN document (missing
director) or an empty vocabulary (every document all stop words or blank). -/
noncomputable def build_similarity_matrix (cat : List Movie) :
    Option (List (List ℝ)) :=
  match docsOf cat with
  | none => none
  | some docs =>
    if (vocab docs).isEmpty then none
    else some (cosine_similarity (tfidfMatrix docs))

/-- Python enumerate starting at n. -/
def pyEnumFrom {α : Type} (n : ℕ) : List α → List (ℕ × α)
  | [] => []
  | a :: t => (n, a) :: pyEnumFrom (n + 1) t

/-- Python list(enumerate(xs)). -/
def pyEnum {α : Type} (l : List α) : List (ℕ × α) := pyEnumFrom 0 l

/-- The pandas row index of the loaded frame: the original dataset row
label of each kept row.  pd.read_csv gives the RangeIndex 0..n-1, the
inplace dropna of load_data keeps each surviving row's label, and nothing
ever resets the index — so the labels are gapped as soon as a
title-missing row was dropped. -/
def load_index (rows : List Row) : List ℕ :=
  ((pyEnum rows).filter (fun p => p.2.title.isSome)).map (fun p => p.1)

/-- Python sorted(scores, key by second component, reverse True): the stable
descending sort on the similarity score, as insertion sort with the
corresponding total relation. -/
noncomputable def pySortedDesc (l : List (ℕ × ℝ)) : List (ℕ × ℝ) :=
  List.insertionSort (fun a b => b.2 ≤ a.2) l

/-- The position of the first row whose Series_Title equals the queried
title; none exactly when the title is not among the values, the case line
40 of src/aw.py returns an empty frame for.  The program itself does not
use this position: it reads the pandas label df.index[position], which
recommend_content models through the frame's index list. -/
def firstTitleIdx (title : String) : List Movie → Option ℕ
  | [] => none
  | m :: t =>
    if m.title = title then some 0
    else (firstTitleIdx title t).map (fun i => i + 1)

/-- recommend_content (lines 39-46 of src/aw.py) over a frame given as its
rows together with its pandas index.  Line 40-41 returns an empty frame
(some []) when the title is absent.  Line 42's
df[df.Series_Title == title].index[0] is the pandas LABEL of the first
matching row — the frame keeps the gapped labels the inplace dropna left,
so the label need not be the row's position.  Line 43 then indexes the
numpy similarity matrix with that label positionally: out of range raises
IndexError (modelled none), otherwise the fetched row is the label-th row,
which is the query's own row only when its label equals its position.  The
scores are enumerated, sorted descending by score (Python sorted, stable),
sliced 1:11 and mapped through the positional iloc (a bad position raises,
modelled none). -/
noncomputable def recommend_content (title : String) (df : List Movie)
    (index : List ℕ) (sim_matrix : List (List ℝ)) : Option (List Movie) :=
  match firstTitleIdx title df with
  | none => some []
  | some pos =>
    (sim_matrix[index.getD pos 0]?).bind (fun row =>
      let scores := pyEnum row
      let top := ((pySortedDesc scores).drop 1).take 10
      let movie_indices := top.map (fun p => p.1)
      allSome (movie_indices.map (fun i => df[i]?)))

/-- The module-level dataframe as mutable state: its rows, its pandas index
(the labels dropna kept) and, once build_similarity_matrix has run, the
metadata column it assigned into the frame. -/
structure Catalog where
  movies : List Movie
  index : List ℕ
  metadataCol : Option (List (Option String))
deriving Repr

/-- build_similarity_matrix with the caller's dataframe threaded through:
line 22 of src/aw.py assigns the metadata column into the caller's frame (a
mutation of the shared dataframe) before fitting, so the returned state
carries the new column even when the fit then errors. -/
noncomputable def build_similarity_matrix_st (c : Catalog) :
    Catalog × Option (List (List ℝ)) :=
  ({ c with metadataCol := some (c.movies.map metadata) },
   build_similarity_matrix c.movies)

/-- recommend_content with the dataframe threaded through: it only reads df
and its index, so the state comes back untouched. -/
noncomputable def recommend_content_st (c : Catalog) (title : String)
    (sim_matrix : List (List ℝ)) : Option (List Movie) × Catalog :=
  (recommend_content title c.movies c.index sim_matrix, c)

/-- recommend_attributes with the dataframe threaded through: line 50 of
src/aw.py takes df.copy() and every later rebinding of filtered makes a new
frame, so the state comes back untouched. -/
def recommend_attributes_st (c : Catalog) (genres stars : List String)
    (years : List Int) (rating : ℚ) : List Movie × Catalog :=
  let filtered := c.movies
  (recommend_attributes filtered genres stars years rating, c)

@[simp]
theorem dotL_nil_left (v : List ℝ) : dotL [] v = 0 := by
  cases v <;> rfl

@[simp]
theorem dotL_nil_right (u : List ℝ) : dotL u [] = 0 := by
  cases u <;> rfl

@[simp]
theorem dotL_cons (a b : ℝ) (u v : List ℝ) :
    dotL (a :: u) (b :: v) = a * b + dotL u v := rfl

theorem dotL_comm (u v : List ℝ) : dotL u v = dotL v u := by
  induction u generalizing v with
  | nil => simp
  | cons a u ih =>
    cases v with
    | nil => simp
    | cons b v => simp [ih, mul_comm]

theorem dotL_self_nonneg (v : List ℝ) : 0 ≤ dotL v v := by
  induction v with
  | nil => simp
  | cons a v ih => simpa using add_nonneg (mul_self_nonneg a) ih

theorem dotL_self_pos {v : List ℝ} {x : ℝ} (hx : x ∈ v) (hx0 : x ≠ 0) :
    0 < dotL v v := by
  induction v with
  | nil => cases hx
  | cons a v ih =>
    rcases List.mem_cons.mp hx with h | h
    · have h1 : 0 < x * x := mul_self_pos.mpr hx0
      have h2 : 0 ≤ dotL v v := dotL_self_nonneg v
      subst h
      simp only [dotL_cons]
      linarith
    · have h1 : 0 < dotL v v := ih h
      have h2 : 0 ≤ a * a := mul_self_nonneg a
      simp only [dotL_cons]
      linarith

theorem dotL_zero_left {u : List ℝ} (h : ∀ x ∈ u, x = 0) (v : List ℝ) :
    dotL u v = 0 := by
  induction u generalizing v with
  | nil => simp
  | cons a u ih =>
    cases v with
    | nil => simp
    | cons b v =>
      have ha : a = 0 := h a (List.mem_cons_self a u)
      have ht := ih (fun x hx => h x (List.mem_cons_of_mem a hx)) v
      simp [ha, ht]

theorem dotL_zero_right {v : List ℝ} (h : ∀ x ∈ v, x = 0) (u : List ℝ) :
    dotL u v = 0 := by
  rw [dotL_comm]
  exact dotL_zero_left h u

theorem dotL_map_div (u v : List ℝ) (c : ℝ) :
    dotL (u.map (fun x => x / c)) (v.map (fun x => x / c)) =
      dotL u v / (c * c) := by
  induction u generalizing v with
  | nil => simp
  | cons a u ih =>
    cases v with
    | nil => simp
    | cons b v =>
      simp only [List.map_cons, dotL_cons, ih]
      rw [div_mul_div_comm, div_add_div_same]

theorem l2normalize_of_all_zero {v : List ℝ} (h : ∀ x ∈ v, x = 0) :
    l2normalize v = v := by
  have hd : dotL v v = 0 := dotL_zero_left h v
  simp [l2normalize, hd]

theorem dotL_l2normalize_self {v : List ℝ} (h : dotL v v ≠ 0) :
    dotL (l2normalize v) (l2normalize v) = 1 := by
  have hpos : 0 < dotL v v := (dotL_self_nonneg v).lt_of_ne (Ne.symm h)
  have hs : Real.sqrt (dotL v v) ≠ 0 := (Real.sqrt_pos.mpr hpos).ne'
  unfold l2normalize
  rw [if_neg hs, dotL_map_div, Real.mul_self_sqrt (dotL_self_nonneg v)]
  exact div_self h

theorem l2normalize_single_pos {a : ℝ} (h : 0 < a) : l2normalize [a] = [1] := by
  have hd : dotL [a] [a] = a * a := by simp
  unfold l2normalize
  rw [hd, Real.sqrt_mul_self h.le, if_neg h.ne']
  simp [div_self h.ne']

theorem l2normalize_single_zero : l2normalize [(0 : ℝ)] = [0] := by
  unfold l2normalize
  simp

theorem l2normalize_pair_left {a : ℝ} (h : 0 < a) :
    l2normalize [a, 0] = [1, 0] := by
  have hd : dotL [a, 0] [a, 0] = a * a := by simp
  unfold l2normalize
  rw [hd, Real.sqrt_mul_self h.le, if_neg h.ne']
  simp [div_self h.ne']

theorem l2normalize_pair_right {b : ℝ} (h : 0 < b) :
    l2normalize [0, b] = [0, 1] := by
  have hd : dotL [0, b] [0, b] = b * b := by simp
  unfold l2normalize
  rw [hd, Real.sqrt_mul_self h.le, if_neg h.ne']
  simp [div_self h.ne']

theorem idf_pos (docs : List String) (t : String) : 0 < idf docs t := by
  have hdf : (docFreq docs t : ℝ) ≤ (docs.length : ℝ) := by
    have : docFreq docs t ≤ docs.length := List.length_filter_le _ _
    exact_mod_cast this
  have hpos : (0 : ℝ) < 1 + (docFreq docs t : ℝ) := by positivity
  have h1 : (1 : ℝ) ≤ (1 + (docs.length : ℝ)) / (1 + (docFreq docs t : ℝ)) := by
    rw [le_div_iff₀ hpos]
    linarith
  have h2 := Real.log_nonneg h1
  unfold idf
  linarith

theorem allSome_length {α : Type} :
    ∀ {l : List (Option α)} {r : List α}, allSome l = some r → r.length = l.length := by
  intro l
  induction l with
  | nil =>
    intro r h
    simp only [allSome, Option.some.injEq] at h
    subst h
    rfl
  | cons a t ih =>
    intro r h
    cases a with
    | none => exact absurd h (by simp [allSome])
    | some a =>
      rcases ht : allSome t with _ | r'
      · rw [allSome, ht] at h
        exact absurd h (by simp)
      · rw [allSome, ht] at h
        simp only [Option.map_some', Option.some.injEq] at h
        subst h
        simp [ih ht]

theorem allSome_getD :
    ∀ {l : List (Option String)} {r : List String}, allSome l = some r →
      ∀ i, i < l.length → l.getD i none = some (r.getD i ("")) := by
  intro l
  induction l with
  | nil =>
    intro r _ i hi
    exact absurd hi (by simp)
  | cons a t ih =>
    intro r h i hi
    cases a with
    | none => exact absurd h (by simp [allSome])
    | some a =>
      rcases ht : allSome t with _ | r'
      · rw [allSome, ht] at h
        exact absurd h (by simp)
      · rw [allSome, ht] at h
        simp only [Option.map_some', Option.some.injEq] at h
        subst h
        cases i with
        | zero => rfl
        | succ i =>
          have hi' : i < t.length := by simpa using hi
          simpa using ih ht i hi'

theorem listGetD_eq {α : Type} (l : List α) (i : ℕ) (d : α) (h : i < l.length) :
    l.getD i d = l[i] := by
  rw [List.getD_eq_getElem?_getD, List.getElem?_eq_getElem h]
  rfl

theorem build_cases {cat : List Movie} {M : List (List ℝ)}
    (h : build_similarity_matrix cat = some M) :
    ∃ docs, docsOf cat = some docs ∧ (vocab docs).isEmpty = false ∧
      M = cosine_similarity (tfidfMatrix docs) := by
  rcases hd : docsOf cat with _ | docs
  · simp [build_similarity_matrix, hd] at h
  · simp only [build_similarity_matrix, hd] at h
    by_cases he : (vocab docs).isEmpty = true
    · rw [if_pos he] at h
      cases h
    · rw [if_neg he] at h
      have hef : (vocab docs).isEmpty = false := by simpa using he
      exact ⟨docs, rfl, hef, (Option.some.inj h).symm⟩

theorem docsOf_length {cat : List Movie} {docs : List String}
    (h : docsOf cat = some docs) : docs.length = cat.length := by
  have := allSome_length h
  simpa using this

theorem docsOf_getD {cat : List Movie} {docs : List String}
    (h : docsOf cat = some docs) (i : ℕ) (hi : i < cat.length) :
    metadata (cat.getD i noMovie) = some (docs.getD i ("")) := by
  have h2 := allSome_getD h i (by simpa using hi)
  have h3 : (cat.map metadata).getD i none = metadata (cat.getD i noMovie) := by
    rw [listGetD_eq (cat.map metadata) i none (by simpa using hi),
      List.getElem_map, listGetD_eq cat i noMovie hi]
  rw [← h3, h2]

theorem cosine_length (X : List (List ℝ)) :
    (cosine_similarity X).length = X.length := by
  simp [cosine_similarity]

theorem getD_map_list {α β : Type} (f : α → β) (l : List α) (i : ℕ) (d : β)
    (h : i < l.length) : (l.map f).getD i d = f l[i] := by
  rw [listGetD_eq (l.map f) i d (by simpa using h), List.getElem_map]

theorem cosine_entry (X : List (List ℝ)) (i j : ℕ)
    (hi : i < X.length) (hj : j < X.length) :
    ((cosine_similarity X).getD i []).getD j 0 =
      dotL (l2normalize (X.getD i [])) (l2normalize (X.getD j [])) := by
  unfold cosine_similarity
  rw [getD_map_list _ _ i [] (by simpa using hi)]
  rw [getD_map_list _ _ j (0 : ℝ) (by simpa using hj)]
  simp only [List.getElem_map]
  rw [listGetD_eq X i [] hi, listGetD_eq X j [] hj]

theorem cosine_row_length (X : List (List ℝ)) (i : ℕ) (hi : i < X.length) :
    ((cosine_similarity X).getD i []).length = X.length := by
  unfold cosine_similarity
  rw [getD_map_list _ _ i [] (by simpa using hi)]
  simp

theorem tfidfMatrix_length (docs : List String) :
    (tfidfMatrix docs).length = docs.length := by
  simp [tfidfMatrix]

theorem tfidfMatrix_getD (docs : List String) (i : ℕ) (hi : i < docs.length) :
    (tfidfMatrix docs).getD i [] =
      l2normalize (tfidfVec docs (docs.getD i (""))) := by
  unfold tfidfMatrix
  rw [listGetD_eq _ i [] (by simpa using hi), List.getElem_map,
    listGetD_eq docs i ("") hi]

theorem build_length {cat : List Movie} {M : List (List ℝ)}
    (h : build_similarity_matrix cat = some M) : M.length = cat.length := by
  obtain ⟨docs, hd, -, hM⟩ := build_cases h
  rw [hM, cosine_length, tfidfMatrix_length, docsOf_length hd]

theorem build_row_length {cat : List Movie} {M : List (List ℝ)}
    (h : build_similarity_matrix cat = some M) (i : ℕ) (hi : i < cat.length) :
    (M.getD i []).length = cat.length := by
  obtain ⟨docs, hd, -, hM⟩ := build_cases h
  have hlen : docs.length = cat.length := docsOf_length hd
  have hi1 : i < (tfidfMatrix docs).length := by
    rw [tfidfMatrix_length, hlen]
    exact hi
  rw [hM, cosine_row_length _ i hi1, tfidfMatrix_length, hlen]

theorem mem_vocab {docs : List String} {d t : String}
    (hd : d ∈ docs) (ht : t ∈ tokenize d) : t ∈ vocab docs := by
  unfold vocab
  rw [(List.perm_insertionSort _ _).mem_iff, List.mem_dedup, List.mem_flatten]
  exact ⟨tokenize d, List.mem_map_of_mem tokenize hd, ht⟩

theorem tfidfVec_all_zero {docs : List String} {d : String}
    (h : tokenize d = []) : ∀ x ∈ tfidfVec docs d, x = 0 := by
  intro x hx
  rcases List.mem_map.mp hx with ⟨t, -, rfl⟩
  have h0 : tf d t = 0 := by
    unfold tf
    rw [h]
    rfl
  simp [h0]

theorem tfidfVec_mem_pos {docs : List String} {d t : String}
    (hd : d ∈ docs) (ht : t ∈ tokenize d) :
    ∃ x ∈ tfidfVec docs d, x ≠ 0 := by
  refine ⟨(tf d t : ℝ) * idf docs t,
    List.mem_map_of_mem _ (mem_vocab hd ht), ?_⟩
  have htf : 0 < tf d t := by
    unfold tf
    exact List.count_pos_iff.mpr ht
  have : 0 < (tf d t : ℝ) * idf docs t :=
    mul_pos (by exact_mod_cast htf) (idf_pos docs t)
  exact this.ne'

theorem normRow_diag_one {docs : List String} {d : String}
    (hd : d ∈ docs) (h : tokenize d ≠ []) :
    dotL (l2normalize (l2normalize (tfidfVec docs d)))
      (l2normalize (l2normalize (tfidfVec docs d))) = 1 := by
  rcases List.exists_mem_of_ne_nil (tokenize d) h with ⟨t, ht⟩
  obtain ⟨x, hx, hx0⟩ := tfidfVec_mem_pos hd ht
  have h1 : dotL (tfidfVec docs d) (tfidfVec docs d) ≠ 0 :=
    (dotL_self_pos hx hx0).ne'
  have h2 := dotL_l2normalize_self h1
  exact dotL_l2normalize_self (h2 ▸ one_ne_zero)

theorem normRow_all_zero {docs : List String} {d : String}
    (h : tokenize d = []) :
    ∀ x ∈ l2normalize (l2normalize (tfidfVec docs d)), x = 0 := by
  have h0 := @tfidfVec_all_zero docs d h
  rw [l2normalize_of_all_zero h0, l2normalize_of_all_zero h0]
  exact h0

theorem pySortedDesc_strict_max {l : List (ℕ × ℝ)} {a : ℕ × ℝ}
    (hnd : l.Nodup) (huniq : ∀ b ∈ l, b.1 = a.1 → b = a)
    (hmax : ∀ b ∈ l, b ≠ a → b.2 < a.2) :
    ∀ b ∈ (pySortedDesc l).drop 1, b.1 ≠ a.1 := by
  haveI hto : IsTotal (ℕ × ℝ) (fun x y => y.2 ≤ x.2) :=
    ⟨fun x y => le_total y.2 x.2⟩
  haveI htr : IsTrans (ℕ × ℝ) (fun x y => y.2 ≤ x.2) :=
    ⟨fun x y z h1 h2 => le_trans h2 h1⟩
  have hperm : List.Perm (pySortedDesc l) l :=
    List.perm_insertionSort (fun x y : ℕ × ℝ => y.2 ≤ x.2) l
  have hsort := List.sorted_insertionSort (fun x y : ℕ × ℝ => y.2 ≤ x.2) l
  have hndS : (pySortedDesc l).Nodup := hperm.nodup_iff.mpr hnd
  cases hs : pySortedDesc l with
  | nil =>
    intro b hb
    rw [List.drop_nil] at hb
    cases hb
  | cons h t =>
    intro b hb hba
    rw [List.drop_succ_cons, List.drop_zero] at hb
    have hbS : b ∈ pySortedDesc l := by
      rw [hs]
      exact List.mem_cons_of_mem h hb
    have hbl : b ∈ l := hperm.mem_iff.mp hbS
    have hbeq : b = a := huniq b hbl hba
    subst hbeq
    have hhl : h ∈ l := hperm.mem_iff.mp (by
      rw [hs]
      exact List.mem_cons_self h t)
    by_cases hha : h = b
    · rw [hs] at hndS
      have := (List.nodup_cons.mp hndS).1
      exact this (hha ▸ hb)
    · have hlt : h.2 < b.2 := hmax h hhl hha
      have hle : b.2 ≤ h.2 := by
        unfold pySortedDesc at hs
        rw [hs] at hsort
        exact (List.pairwise_cons.mp hsort).1 b hb
      exact absurd hlt (not_lt.mpr hle)

theorem pyEnumFrom_mem {α : Type} :
    ∀ {n : ℕ} {l : List α} {b : ℕ × α}, b ∈ pyEnumFrom n l →
      n ≤ b.1 ∧ l[b.1 - n]? = some b.2 := by
  intro n l
  induction l generalizing n with
  | nil =>
    intro b hb
    cases hb
  | cons a t ih =>
    intro b hb
    rcases List.mem_cons.mp hb with hb0 | hb1
    · subst hb0
      refine ⟨le_refl n, ?_⟩
      simp [Nat.sub_self]
    · obtain ⟨h1, h2⟩ := ih hb1
      refine ⟨le_trans (Nat.le_succ n) h1, ?_⟩
      have hsub : b.1 - n = (b.1 - (n + 1)) + 1 := by omega
      rw [hsub]
      simpa using h2

theorem pyEnum_mem {α : Type} {l : List α} {b : ℕ × α} (hb : b ∈ pyEnum l) :
    l[b.1]? = some b.2 := by
  have h := (pyEnumFrom_mem hb).2
  simpa using h

theorem pyEnum_mem_lt {α : Type} {l : List α} {b : ℕ × α} (hb : b ∈ pyEnum l) :
    b.1 < l.length := by
  have h := pyEnum_mem hb
  rcases List.getElem?_eq_some.mp h with ⟨hlt, -⟩
  exact hlt

theorem pyEnumFrom_getElem_mem {α : Type} :
    ∀ (n i : ℕ) (l : List α) (hi : i < l.length),
      (n + i, l[i]) ∈ pyEnumFrom n l := by
  intro n i l
  induction l generalizing n i with
  | nil =>
    intro hi
    exact absurd hi (by simp)
  | cons a t ih =>
    intro hi
    cases i with
    | zero => simp [pyEnumFrom]
    | succ i =>
      have hi' : i < t.length := by simpa using hi
      have := ih (n + 1) i hi'
      have harith : n + (i + 1) = (n + 1) + i := by omega
      rw [harith]
      simpa [pyEnumFrom] using Or.inr this

theorem pyEnum_getElem_mem {α : Type} (l : List α) (i : ℕ) (hi : i < l.length) :
    (i, l[i]) ∈ pyEnum l := by
  have := pyEnumFrom_getElem_mem 0 i l hi
  simpa [pyEnum] using this

theorem pyEnumFrom_pairwise {α : Type} :
    ∀ (n : ℕ) (l : List α), (pyEnumFrom n l).Pairwise (fun a b => a.1 < b.1) := by
  intro n l
  induction l generalizing n with
  | nil => exact List.Pairwise.nil
  | cons a t ih =>
    refine List.pairwise_cons.mpr ⟨?_, ih (n + 1)⟩
    intro b hb
    have := (pyEnumFrom_mem hb).1
    simp only []
    omega

theorem pyEnum_nodup {α : Type} (l : List α) : (pyEnum l).Nodup := by
  have h := pyEnumFrom_pairwise 0 l
  exact h.imp (fun hlt heq => absurd (heq ▸ hlt) (lt_irrefl _))

theorem pyEnum_fst_inj {α : Type} {l : List α} {b c : ℕ × α}
    (hb : b ∈ pyEnum l) (hc : c ∈ pyEnum l) (h : b.1 = c.1) : b = c := by
  have h1 := pyEnum_mem hb
  have h2 := pyEnum_mem hc
  rw [h] at h1
  rw [h1] at h2
  exact Prod.ext h (Option.some.inj h2)

theorem firstTitleIdx_lt {title : String} :
    ∀ {df : List Movie} {i : ℕ}, firstTitleIdx title df = some i → i < df.length := by
  intro df
  induction df with
  | nil =>
    intro i h
    cases h
  | cons m t ih =>
    intro i h
    by_cases hm : m.title = title
    · rw [firstTitleIdx, if_pos hm] at h
      cases h
      simp
    · rw [firstTitleIdx, if_neg hm] at h
      rcases hh : firstTitleIdx title t with _ | j
      · rw [hh] at h
        cases h
      · rw [hh] at h
        simp only [Option.map_some', Option.some.injEq] at h
        subst h
        have := ih hh
        simp
        omega

theorem firstTitleIdx_title {title : String} :
    ∀ {df : List Movie} {i : ℕ}, firstTitleIdx title df = some i →
      (df.getD i noMovie).title = title := by
  intro df
  induction df with
  | nil =>
    intro i h
    cases h
  | cons m t ih =>
    intro i h
    by_cases hm : m.title = title
    · rw [firstTitleIdx, if_pos hm] at h
      cases h
      exact hm
    · rw [firstTitleIdx, if_neg hm] at h
      rcases hh : firstTitleIdx title t with _ | j
      · rw [hh] at h
        cases h
      · rw [hh] at h
        simp only [Option.map_some', Option.some.injEq] at h
        subst h
        exact ih hh

theorem title_index_inj {df : List Movie}
    (hnd : (df.map Movie.title).Nodup) {i j : ℕ}
    (hi : i < df.length) (hj : j < df.length)
    (h : (df.getD i noMovie).title = (df.getD j noMovie).title) : i = j := by
  rw [listGetD_eq df i noMovie hi, listGetD_eq df j noMovie hj] at h
  have hi2 : i < (df.map Movie.title).length := by simpa using hi
  have hj2 : j < (df.map Movie.title).length := by simpa using hj
  have h2 : (df.map Movie.title)[i] = (df.map Movie.title)[j] := by
    rw [List.getElem_map, List.getElem_map]
    exact h
  exact (hnd.getElem_inj_iff).mp h2

theorem allSome_mem {α : Type} :
    ∀ {l : List (Option α)} {r : List α}, allSome l = some r →
      ∀ {x : α}, x ∈ r → some x ∈ l := by
  intro l
  induction l with
  | nil =>
    intro r h x hx
    simp only [allSome, Option.some.injEq] at h
    subst h
    cases hx
  | cons a t ih =>
    intro r h x hx
    cases a with
    | none => exact absurd h (by simp [allSome])
    | some a =>
      rcases ht : allSome t with _ | r'
      · rw [allSome, ht] at h
        exact absurd h (by simp)
      · rw [allSome, ht] at h
        simp only [Option.map_some', Option.some.injEq] at h
        subst h
        rcases List.mem_cons.mp hx with hx0 | hx1
        · subst hx0
          exact List.mem_cons_self _ _
        · exact List.mem_cons_of_mem _ (ih ht hx1)

theorem recommend_content_none {title : String} {df : List Movie}
    {index : List ℕ} {M : List (List ℝ)}
    (h : firstTitleIdx title df = none) :
    recommend_content title df index M = some [] := by
  unfold recommend_content
  rw [h]

theorem recommend_content_some {title : String} {df : List Movie}
    {index : List ℕ} {M : List (List ℝ)} {idx : ℕ} {row : List ℝ}
    (h : firstTitleIdx title df = some idx)
    (hrow : M[index.getD idx 0]? = some row) :
    recommend_content title df index M =
      allSome (((((pySortedDesc (pyEnum row)).drop 1).take 10).map
        (fun p => p.1)).map (fun i => df[i]?)) := by
  simp only [recommend_content, h, hrow, Option.some_bind]

/-- Test fixture: a movie whose only text is the overview word action. -/
def mA : Movie :=
  { title := "A", year := some 2000, rating := some 8, genre := "",
    director := some "", star1 := "", star2 := "", star3 := "", star4 := "",
    overview := some ("action"), poster := none }

/-- Test fixture: a movie whose text fields are all blank. -/
def mB : Movie :=
  { title := "B", year := some 2001, rating := some 7, genre := "",
    director := some "", star1 := "", star2 := "", star3 := "", star4 := "",
    overview := some (""), poster := none }

/-- Test fixture: a movie whose only text is the stop word the. -/
def mT : Movie :=
  { title := "T", year := some 2002, rating := some 6, genre := "",
    director := some "", star1 := "", star2 := "", star3 := "", star4 := "",
    overview := some ("the"), poster := none }

/-- Test fixture: like mA but under another title. -/
def mU : Movie :=
  { title := "U", year := some 2003, rating := some 5, genre := "",
    director := some "", star1 := "", star2 := "", star3 := "", star4 := "",
    overview := some ("action"), poster := none }

/-- Test fixture: a movie with a missing director cell. -/
def mNoDir : Movie :=
  { title := "X", year := none, rating := none, genre := "",
    director := none, star1 := "", star2 := "", star3 := "", star4 := "",
    overview := some ("something"), poster := none }

/-- Test fixture: a movie whose only text is the overview word drama. -/
def mD : Movie :=
  { title := "D", year := some 2005, rating := some 7, genre := "",
    director := some "", star1 := "", star2 := "", star3 := "", star4 := "",
    overview := some ("drama"), poster := none }

def catAB : List Movie := [mA, mB]

def catThe : List Movie := [mT, mU]

def catAD : List Movie := [mA, mD]

/-- Raw dataset row loading to mA. -/
def rawA : Row :=
  { title := some ("A"), year := some 2000, rating := some 8,
    genre := some (""), director := some (""), star1 := some (""),
    star2 := some (""), star3 := some (""), star4 := some (""),
    overview := some ("action"), poster := none }

/-- Raw dataset row loading to mB. -/
def rawB : Row :=
  { title := some ("B"), year := some 2001, rating := some 7,
    genre := some (""), director := some (""), star1 := some (""),
    star2 := some (""), star3 := some (""), star4 := some (""),
    overview := some (""), poster := none }

/-- Raw dataset row loading to mD. -/
def rawD : Row :=
  { title := some ("D"), year := some 2005, rating := some 7,
    genre := some (""), director := some (""), star1 := some (""),
    star2 := some (""), star3 := some (""), star4 := some (""),
    overview := some ("drama"), poster := none }

/-- Raw dataset row with its title cell missing: dropped by load_data. -/
def rawNoTitle : Row :=
  { title := none, year := none, rating := none,
    genre := none, director := none, star1 := none,
    star2 := none, star3 := none, star4 := none,
    overview := none, poster := none }

/-- Raw dataset whose rows all carry a title: labels equal positions. -/
def rowsAB : List Row := [rawA, rawB]

/-- Raw dataset whose first row lacks its title: the loaded frame keeps the
gapped labels 1 and 2. -/
def rows3 : List Row := [rawNoTitle, rawA, rawD]

/-- Metadata document of mA and mU. -/
def docA : String := "action      "

/-- Metadata document of mB. -/
def docB : String := "      "

/-- Metadata document of mT. -/
def docT : String := "the      "

/-- Metadata document of mD. -/
def docD : String := "drama      "

/-- The similarity matrix the pipeline yields on catAB. -/
def MAB : List (List ℝ) := [[1, 0], [0, 0]]

/-- The similarity matrix the pipeline yields on catThe. -/
def MThe : List (List ℝ) := [[0, 0], [0, 1]]

/-- The similarity matrix the pipeline yields on catAD. -/
def MAD : List (List ℝ) := [[1, 0], [0, 1]]

theorem docsOf_catAB : docsOf catAB = some [docA, docB] := by decide

theorem docsOf_catThe : docsOf catThe = some [docT, docA] := by decide

theorem vocab_AB : vocab [docA, docB] = [("action")] := by decide

theorem vocab_The : vocab [docT, docA] = [("action")] := by decide

theorem tfidfVec_AB_A :
    tfidfVec [docA, docB] docA = [idf [docA, docB] ("action")] := by
  have h : tf docA ("action") = 1 := by decide
  simp [tfidfVec, vocab_AB, h]

theorem tfidfVec_AB_B : tfidfVec [docA, docB] docB = [(0 : ℝ)] := by
  have h : tf docB ("action") = 0 := by decide
  simp [tfidfVec, vocab_AB, h]

theorem tfidfVec_The_T : tfidfVec [docT, docA] docT = [(0 : ℝ)] := by
  have h : tf docT ("action") = 0 := by decide
  simp [tfidfVec, vocab_The, h]

theorem tfidfVec_The_A :
    tfidfVec [docT, docA] docA = [idf [docT, docA] ("action")] := by
  have h : tf docA ("action") = 1 := by decide
  simp [tfidfVec, vocab_The, h]

theorem tfidfMatrix_AB : tfidfMatrix [docA, docB] = [[(1 : ℝ)], [0]] := by
  have h1 := l2normalize_single_pos (idf_pos [docA, docB] ("action"))
  show [l2normalize (tfidfVec [docA, docB] docA),
    l2normalize (tfidfVec [docA, docB] docB)] = _
  rw [tfidfVec_AB_A, tfidfVec_AB_B, h1, l2normalize_single_zero]

theorem tfidfMatrix_The : tfidfMatrix [docT, docA] = [[(0 : ℝ)], [1]] := by
  have h1 := l2normalize_single_pos (idf_pos [docT, docA] ("action"))
  show [l2normalize (tfidfVec [docT, docA] docT),
    l2normalize (tfidfVec [docT, docA] docA)] = _
  rw [tfidfVec_The_T, tfidfVec_The_A, h1, l2normalize_single_zero]

theorem cosine_on_10 : cosine_similarity [[(1 : ℝ)], [0]] = MAB := by
  have h1 : l2normalize [(1 : ℝ)] = [1] := l2normalize_single_pos one_pos
  have h2 : List.map l2normalize [[(1 : ℝ)], [0]] = [[1], [0]] := by
    rw [List.map_cons, List.map_cons, List.map_nil, h1, l2normalize_single_zero]
  unfold cosine_similarity
  rw [h2]
  simp [MAB]

theorem cosine_on_01 : cosine_similarity [[(0 : ℝ)], [1]] = MThe := by
  have h1 : l2normalize [(1 : ℝ)] = [1] := l2normalize_single_pos one_pos
  have h2 : List.map l2normalize [[(0 : ℝ)], [1]] = [[0], [1]] := by
    rw [List.map_cons, List.map_cons, List.map_nil, h1, l2normalize_single_zero]
  unfold cosine_similarity
  rw [h2]
  simp [MThe]

theorem build_catAB : build_similarity_matrix catAB = some MAB := by
  have hvoc : vocab [docA, docB] = [("action")] := vocab_AB
  simp only [build_similarity_matrix, docsOf_catAB, hvoc]
  rw [tfidfMatrix_AB, cosine_on_10]
  rfl

theorem build_catThe : build_similarity_matrix catThe = some MThe := by
  have hvoc : vocab [docT, docA] = [("action")] := vocab_The
  simp only [build_similarity_matrix, docsOf_catThe, hvoc]
  rw [tfidfMatrix_The, cosine_on_01]
  rfl

theorem docsOf_catAD : docsOf catAD = some [docA, docD] := by decide

theorem vocab_AD : vocab [docA, docD] = [("action"), ("drama")] := by decide

theorem tfidfVec_AD_A :
    tfidfVec [docA, docD] docA = [idf [docA, docD] ("action"), 0] := by
  have h1 : tf docA ("action") = 1 := by decide
  have h2 : tf docA ("drama") = 0 := by decide
  simp [tfidfVec, vocab_AD, h1, h2]

theorem tfidfVec_AD_D :
    tfidfVec [docA, docD] docD = [(0 : ℝ), idf [docA, docD] ("drama")] := by
  have h1 : tf docD ("action") = 0 := by decide
  have h2 : tf docD ("drama") = 1 := by decide
  simp [tfidfVec, vocab_AD, h1, h2]

theorem tfidfMatrix_AD : tfidfMatrix [docA, docD] = [[(1 : ℝ), 0], [0, 1]] := by
  have h1 := l2normalize_pair_left (idf_pos [docA, docD] ("action"))
  have h2 := l2normalize_pair_right (idf_pos [docA, docD] ("drama"))
  show [l2normalize (tfidfVec [docA, docD] docA),
    l2normalize (tfidfVec [docA, docD] docD)] = _
  rw [tfidfVec_AD_A, tfidfVec_AD_D, h1, h2]

theorem cosine_on_id2 : cosine_similarity [[(1 : ℝ), 0], [0, 1]] = MAD := by
  have h1 : l2normalize [(1 : ℝ), 0] = [1, 0] := l2normalize_pair_left one_pos
  have h2 : l2normalize [(0 : ℝ), 1] = [0, 1] := l2normalize_pair_right one_pos
  have hmap : List.map l2normalize [[(1 : ℝ), 0], [0, 1]] = [[1, 0], [0, 1]] := by
    rw [List.map_cons, List.map_cons, List.map_nil, h1, h2]
  unfold cosine_similarity
  rw [hmap]
  simp [MAD]

theorem build_catAD : build_similarity_matrix catAD = some MAD := by
  have hvoc : vocab [docA, docD] = [("action"), ("drama")] := vocab_AD
  simp only [build_similarity_matrix, docsOf_catAD, hvoc]
  rw [tfidfMatrix_AD, cosine_on_id2]
  rfl

theorem attrFiltered_eq_filter (df : List Movie) (g s : List String)
    (y : List Int) (r : ℚ) :
    attrFiltered df g s y r = df.filter (claimPass g s y r) := by
  unfold attrFiltered claimPass
  by_cases hg : g.isEmpty <;> by_cases hs : s.isEmpty <;>
    by_cases hy : y.isEmpty <;>
      simp [hg, hs, hy, List.filter_filter, Bool.and_comm, Bool.and_assoc,
        Bool.and_left_comm]

theorem rating_none_not_mem {df : List Movie} {g s : List String}
    {y : List Int} {r : ℚ} {m : Movie} (h : m.rating = none) :
    m ∉ recommend_attributes df g s y r := by
  intro hmem
  unfold recommend_attributes at hmem
  have h1 : m ∈ sortDescByRating (attrFiltered df g s y r) :=
    (List.take_sublist 10 _).subset hmem
  have h2 : m ∈ attrFiltered df g s y r := by
    unfold sortDescByRating at h1
    exact (List.perm_insertionSort _ _).mem_iff.mp h1
  rw [attrFiltered_eq_filter] at h2
  have h3 := (List.mem_filter.mp h2).2
  simp [claimPass, h] at h3

/-- C2 (confirmed): a movie with an unknown (NaN) rating is excluded from
recommend_attributes for every rating threshold, in particular for the
minimum threshold 0: the source filter IMDB_Rating >= rating is False on
NaN, unconditionally. -/
theorem C2_unknown_rating_excluded (df : List Movie) (g s : List String)
    (y : List Int) (r : ℚ) (m : Movie) (h : m.rating = none) :
    m ∉ recommend_attributes df g s y r ∧
      m ∉ recommend_attributes df g s y 0 :=
  ⟨rating_none_not_mem h, rating_none_not_mem h⟩

/-- C2 witness: the concrete unknown-rating movie mNoDir is kept out even at
threshold 0. -/
theorem C2_witness :
    mNoDir.rating = none ∧
    mNoDir ∉ recommend_attributes [mNoDir] [] [] [] 0 :=
  ⟨rfl, (C2_unknown_rating_excluded [mNoDir] [] [] [] 0 mNoDir rfl).2⟩

/-- C3 (confirmed): the source's chain of conditional filters equals one
filter by the claimed predicate: ANY requested genre a substring of the
genre field, ANY of the four cast fields exactly equal to a requested star,
the year a member of the requested set (unknown year never passes), all
active predicates conjoined, with the rating threshold always active. -/
theorem C3_attribute_predicates (df : List Movie) (g s : List String)
    (y : List Int) (r : ℚ) :
    attrFiltered df g s y r = df.filter (claimPass g s y r) ∧
    recommend_attributes df g s y r =
      (sortDescByRating (df.filter (claimPass g s y r))).take 10 := by
  refine ⟨attrFiltered_eq_filter df g s y r, ?_⟩
  unfold recommend_attributes
  rw [attrFiltered_eq_filter]

/-- C9 (confirmed): load_data drops exactly the rows whose title is missing,
silently: the catalog size plus the count of title-missing rows is the input
row count, and the catalog is the cleaning of the title-carrying rows in
order (the function is total: no error for such rows). -/
theorem C9_title_missing_rows_dropped (rows : List Row) :
    (load_data rows).length +
      (rows.filter (fun r => r.title.isNone)).length = rows.length ∧
    load_data rows = (rows.filter (fun r => r.title.isSome)).map cleanRow := by
  refine ⟨?_, rfl⟩
  unfold load_data
  rw [List.length_map]
  induction rows with
  | nil => rfl
  | cons r t ih =>
    cases hr : r.title with
    | none =>
      simp only [List.filter_cons, hr, Option.isSome_none, Option.isNone_none,
        Bool.false_eq_true, if_false, if_true, List.length_cons]
      omega
    | some a =>
      simp only [List.filter_cons, hr, Option.isSome_some, Option.isNone_some,
        Bool.false_eq_true, if_false, if_true, List.length_cons]
      omega

/-- C10 (confirmed): recommend_attributes does not modify the catalog: the
source works on df.copy() and never writes through the input frame, so the
state-passing version returns the catalog unchanged, and its result is the
pure function of the rows. -/
theorem C10_attributes_frame (c : Catalog) (g s : List String) (y : List Int)
    (r : ℚ) :
    (recommend_attributes_st c g s y r).2 = c ∧
    (recommend_attributes_st c g s y r).1 =
      recommend_attributes c.movies g s y r :=
  ⟨rfl, rfl⟩

/-- Test fixture: the module dataframe before build_similarity_matrix runs,
with no metadata column. -/
def cat0 : Catalog := { movies := [mA, mB], index := [0, 1], metadataCol := none }

/-- C8 counterexample: building the similarity index mutates the catalog:
line 22 of src/aw.py assigns a new metadata column into the shared frame,
so the set of columns does not stay unchanged — on cat0 the column goes
from absent to present. -/
theorem C8_counterexample :
    cat0.metadataCol = none ∧
    (build_similarity_matrix_st cat0).1.metadataCol =
      some [some docA, some docB] :=
  ⟨rfl, by decide⟩

/-- C8 (corrected): what does hold: building leaves the movie rows (every
field, in order) and the pandas index unchanged and only adds the metadata
column, and both query operations leave the catalog state entirely
unchanged. -/
theorem C8_amended (c : Catalog) (title : String) (sim : List (List ℝ))
    (g s : List String) (y : List Int) (r : ℚ) :
    (build_similarity_matrix_st c).1.movies = c.movies ∧
    (build_similarity_matrix_st c).1.index = c.index ∧
    (build_similarity_matrix_st c).1.metadataCol =
      some (c.movies.map metadata) ∧
    (build_similarity_matrix_st c).2 = build_similarity_matrix c.movies ∧
    (recommend_content_st c title sim).2 = c ∧
    (recommend_attributes_st c g s y r).2 = c :=
  ⟨rfl, rfl, rfl, rfl, rfl, rfl⟩

/-- C6 counterexample: the builder does not default the director to the
empty string: a movie with a missing director has a NaN metadata cell (not
the spec's space-joined document, which is well defined), and the whole
build fails on any catalog containing it. -/
theorem C6_counterexample :
    metadata mNoDir = none ∧
    metadataSpec mNoDir = ("something      ") ∧
    build_similarity_matrix [mA, mNoDir] = none :=
  ⟨rfl, by decide, rfl⟩

/-- C6 (corrected): for a movie whose director is present the metadata cell
is exactly the spec's Feature Document (overview defaulted to the empty
string, genre and cast already filled at load); and the vectorizer's tokens
never include a stop word (and are at least two word characters long).
A missing director, however, yields no document at all. -/
theorem C6_amended (m : Movie) (d : String) (hd : m.director = some d)
    (s t : String) (ht : t ∈ tokenize s) :
    metadata m = some (metadataSpec m) ∧
    2 ≤ t.length ∧ t ∉ englishStopWords := by
  refine ⟨?_, ?_, ?_⟩
  · simp [metadata, metadataSpec, hd]
  · unfold tokenize at ht
    have h2 := (List.mem_filter.mp ht).2
    simp only [Bool.and_eq_true, decide_eq_true_eq] at h2
    exact h2.1
  · unfold tokenize at ht
    have h2 := (List.mem_filter.mp ht).2
    simp only [Bool.and_eq_true, Bool.not_eq_true'] at h2
    simpa using h2.2

/-- C6 witness: the fixture mA has a present (empty) director, so its
metadata cell is the spec document; the token action of its document is no
stop word. -/
theorem C6_witness :
    metadata mA = some (metadataSpec mA) ∧
    2 ≤ ("action" : String).length ∧ ("action" : String) ∉ englishStopWords :=
  C6_amended mA ("") rfl docA ("action") (by decide)

theorem firstTitleIdx_none {title : String} :
    ∀ {df : List Movie}, (∀ m ∈ df, m.title ≠ title) →
      firstTitleIdx title df = none := by
  intro df
  induction df with
  | nil => intro _; rfl
  | cons m t ih =>
    intro h
    rw [firstTitleIdx, if_neg (h m (List.mem_cons_self m t)),
      ih (fun x hx => h x (List.mem_cons_of_mem m hx))]
    rfl

/-- C4 (confirmed): a title absent from the catalog makes recommend_content
return the empty sequence — some [], before any label lookup or indexing —
a soft not-found, distinguishable from the error outcome none. -/
theorem C4_absent_title_empty (df : List Movie) (index : List ℕ)
    (sim : List (List ℝ)) (title : String) (h : ∀ m ∈ df, m.title ≠ title) :
    recommend_content title df index sim = some [] :=
  recommend_content_none (firstTitleIdx_none h)

/-- C4 witness: a concrete absent title on the two-movie fixture catalog. -/
theorem C4_witness : recommend_content ("Z") catAB [0, 1] MAB = some [] :=
  C4_absent_title_empty catAB [0, 1] MAB ("Z") (by decide)

theorem pySortedDesc_two_zero :
    pySortedDesc [(0, (0 : ℝ)), (1, 0)] = [(0, (0 : ℝ)), (1, 0)] := by
  unfold pySortedDesc
  simp [List.insertionSort, List.orderedInsert]

theorem pySortedDesc_zero_one :
    pySortedDesc [(0, (0 : ℝ)), (1, 1)] = [(1, (1 : ℝ)), (0, 0)] := by
  unfold pySortedDesc
  norm_num [List.insertionSort, List.orderedInsert]

theorem pySortedDesc_one_zero :
    pySortedDesc [(0, (1 : ℝ)), (1, 0)] = [(0, (1 : ℝ)), (1, 0)] := by
  unfold pySortedDesc
  norm_num [List.insertionSort, List.orderedInsert]

/-- C1 counterexample: two real failures of self-exclusion, end to end from
the raw dataset.  First, the blank movie mB of the drop-free load rowsAB:
its similarity row is all zeros, its self-entry is 0 rather than 1.0, the
stable descending sort leaves the query at rank 1 only by tie order, and
slice 1:11 keeps the query movie itself.  Second, the label/position
mismatch: rows3 starts with a title-missing row, so the loaded frame keeps
the gapped pandas labels [1, 2]; the query A resolves to label 1, the
program reads row 1 of the matrix — movie D's row, whose top score is D's
self-entry — and slice 1:11 returns A itself, although the titles are
distinct and A's true row 0 has a strictly dominant self-entry. -/
theorem C1_counterexample :
    (load_data rowsAB = catAB ∧ load_index rowsAB = [0, 1] ∧
      mB ∈ catAB ∧ mB.title = ("B") ∧
      build_similarity_matrix catAB = some MAB ∧
      recommend_content mB.title catAB [0, 1] MAB = some [mB]) ∧
    (load_data rows3 = catAD ∧ load_index rows3 = [1, 2] ∧
      (catAD.map Movie.title).Nodup ∧
      build_similarity_matrix catAD = some MAD ∧
      (MAD.getD 0 []).getD 1 0 < (MAD.getD 0 []).getD 0 0 ∧
      recommend_content mA.title catAD [1, 2] MAD = some [mA]) := by
  refine ⟨⟨by decide, by decide, by decide, rfl, build_catAB, ?_⟩,
    ⟨by decide, by decide, by decide, build_catAD, ?_, ?_⟩⟩
  · have hf : firstTitleIdx mB.title catAB = some 1 := by decide
    have hrow : MAB[([0, 1] : List ℕ).getD 1 0]? = some [(0 : ℝ), 0] := rfl
    rw [recommend_content_some hf hrow]
    rw [show pyEnum [(0 : ℝ), 0] = [(0, (0 : ℝ)), (1, 0)] from rfl,
      pySortedDesc_two_zero]
    rfl
  · show (0 : ℝ) < 1
    norm_num
  · have hf : firstTitleIdx mA.title catAD = some 0 := by decide
    have hrow : MAD[([1, 2] : List ℕ).getD 0 0]? = some [(0 : ℝ), 1] := rfl
    rw [recommend_content_some hf hrow]
    rw [show pyEnum [(0 : ℝ), 1] = [(0, (0 : ℝ)), (1, 1)] from rfl,
      pySortedDesc_zero_one]
    rfl

/-- C1 (corrected): self-exclusion does hold in the intended regime: when
the catalog's titles are distinct, the pandas label of the query row equals
its position (as after a load that dropped no earlier row — the inplace
dropna otherwise leaves gapped labels that fetch another movie's similarity
row), and the query row's self-entry strictly dominates every other entry
of its row (self-similarity 1.0, no other document tied at 1.0), then the
query movie is never in the returned list — rank 1 is the query itself and
slice 1:11 drops it.  Both provisos are forced by the counterexample. -/
theorem C1_amended (df : List Movie) (index : List ℕ) (M : List (List ℝ))
    (m : Movie) (idx : ℕ) (hb : build_similarity_matrix df = some M)
    (hfind : firstTitleIdx m.title df = some idx)
    (hlab : index.getD idx 0 = idx)
    (hnd : (df.map Movie.title).Nodup)
    (hmax : ∀ j, j < (M.getD idx []).length → j ≠ idx →
      (M.getD idx []).getD j 0 < (M.getD idx []).getD idx 0) :
    ∀ res, recommend_content m.title df index M = some res → m ∉ res := by
  intro res hres hmem
  have hidxlt : idx < df.length := firstTitleIdx_lt hfind
  have hMlen : M.length = df.length := build_length hb
  have hMidx : idx < M.length := by
    rw [hMlen]
    exact hidxlt
  have hrowlen : (M.getD idx []).length = df.length :=
    build_row_length hb idx hidxlt
  have hidxrow : idx < (M.getD idx []).length := by
    rw [hrowlen]
    exact hidxlt
  have hrow : M[index.getD idx 0]? = some (M.getD idx []) := by
    rw [hlab, List.getElem?_eq_getElem hMidx, listGetD_eq M idx [] hMidx]
  rw [recommend_content_some hfind hrow] at hres
  have hsm := allSome_mem hres hmem
  rcases List.mem_map.mp hsm with ⟨i, hiTop, hgi⟩
  rcases List.mem_map.mp hiTop with ⟨b, hbTop, hbi⟩
  have hbDrop : b ∈ (pySortedDesc (pyEnum (M.getD idx []))).drop 1 :=
    (List.take_sublist 10 _).subset hbTop
  have haMem : ((idx, (M.getD idx []).getD idx 0) : ℕ × ℝ) ∈
      pyEnum (M.getD idx []) := by
    rw [listGetD_eq _ idx (0 : ℝ) hidxrow]
    exact pyEnum_getElem_mem (M.getD idx []) idx hidxrow
  have hA := pySortedDesc_strict_max
    (pyEnum_nodup (M.getD idx []))
    (fun c hc hceq => pyEnum_fst_inj hc haMem hceq)
    (fun c hc hca => by
      have hc1 := pyEnum_mem hc
      have hclt := pyEnum_mem_lt hc
      have hcne : c.1 ≠ idx := by
        intro heq
        exact hca (pyEnum_fst_inj hc haMem heq)
      have hlt := hmax c.1 hclt hcne
      have hc2 : (M.getD idx []).getD c.1 0 = c.2 := by
        rw [listGetD_eq _ c.1 (0 : ℝ) hclt]
        have := List.getElem?_eq_getElem hclt
        rw [this] at hc1
        exact Option.some.inj hc1
      exact hc2 ▸ hlt)
  have hbne : b.1 ≠ idx := hA b hbDrop
  rcases List.getElem?_eq_some.mp hgi with ⟨hilt, hieq⟩
  have htitle_i : (df.getD i noMovie).title = m.title := by
    rw [listGetD_eq df i noMovie hilt, hieq]
  have htitle_idx : (df.getD idx noMovie).title = m.title :=
    firstTitleIdx_title hfind
  have hidx_eq : i = idx :=
    title_index_inj hnd hilt hidxlt (htitle_i.trans htitle_idx.symm)
  exact hbne (hbi.trans hidx_eq)

/-- C1 witness: on the drop-free catAB (labels equal positions) the query A
has self-similarity 1.0 strictly above the other entry of its row, the
program returns exactly [mB], and A is indeed absent from it. -/
theorem C1_witness :
    (catAB.map Movie.title).Nodup ∧
    recommend_content mA.title catAB [0, 1] MAB = some [mB] ∧
    mA ∉ [mB] := by
  have heq : recommend_content mA.title catAB [0, 1] MAB = some [mB] := by
    have hf : firstTitleIdx mA.title catAB = some 0 := by decide
    have hrow : MAB[([0, 1] : List ℕ).getD 0 0]? = some [(1 : ℝ), 0] := rfl
    rw [recommend_content_some hf hrow]
    rw [show pyEnum [(1 : ℝ), 0] = [(0, (1 : ℝ)), (1, 0)] from rfl,
      pySortedDesc_one_zero]
    rfl
  refine ⟨by decide, heq, ?_⟩
  refine C1_amended catAB [0, 1] MAB mA 0 build_catAB (by decide) rfl
    (by decide) ?_ [mB] heq
  intro j hj hne
  have hj2 : j < 2 := by simpa [MAB] using hj
  have hj1 : j = 1 := by omega
  subst hj1
  show (0 : ℝ) < 1
  norm_num

/-- C7 counterexample: a movie whose overview is the stop word the has a
non-empty Feature Document (nine characters), yet its tf-idf vector is
zero, so its diagonal similarity entry is 0, not 1.0: the diagonal-one
guarantee does not follow from a non-empty document. -/
theorem C7_counterexample :
    build_similarity_matrix catThe = some MThe ∧
    metadata mT = some docT ∧
    docT.length = 9 ∧
    (MThe.getD 0 []).getD 0 0 = 0 :=
  ⟨build_catThe, rfl, rfl, rfl⟩

/-- C7 (corrected): the built matrix is square with the catalog's dimension,
symmetric, its diagonal entry is 1.0 exactly when the movie's document
tokenizes to at least one non-stop-word token of two or more word
characters (and 0 otherwise), and a movie whose document tokenizes to
nothing (zero vector) has similarity 0 — a defined value, never NaN — to
every movie, row and column. -/
theorem C7_amended (cat : List Movie) (M : List (List ℝ)) (i j : ℕ)
    (d : String) (hb : build_similarity_matrix cat = some M)
    (hi : i < cat.length) (hj : j < cat.length)
    (hdi : metadata (cat.getD i noMovie) = some d) :
    M.length = cat.length ∧
    (M.getD i []).length = cat.length ∧
    (M.getD i []).getD j 0 = (M.getD j []).getD i 0 ∧
    (M.getD i []).getD i 0 = (if tokenize d = [] then (0 : ℝ) else 1) ∧
    (if tokenize d = [] then
      ((M.getD i []).getD j 0 = 0 ∧ (M.getD j []).getD i 0 = 0)
    else True) := by
  obtain ⟨docs, hdocs, hne, hM⟩ := build_cases hb
  have hlen : docs.length = cat.length := docsOf_length hdocs
  have hdi2 := docsOf_getD hdocs i hi
  have hd_eq : docs.getD i ("") = d :=
    Option.some.inj (hdi2.symm.trans hdi)
  have hiX : i < (tfidfMatrix docs).length := by
    rw [tfidfMatrix_length, hlen]
    exact hi
  have hjX : j < (tfidfMatrix docs).length := by
    rw [tfidfMatrix_length, hlen]
    exact hj
  have hij : (M.getD i []).getD j 0 =
      dotL (l2normalize ((tfidfMatrix docs).getD i []))
        (l2normalize ((tfidfMatrix docs).getD j [])) := by
    rw [hM]
    exact cosine_entry _ i j hiX hjX
  have hji : (M.getD j []).getD i 0 =
      dotL (l2normalize ((tfidfMatrix docs).getD j []))
        (l2normalize ((tfidfMatrix docs).getD i [])) := by
    rw [hM]
    exact cosine_entry _ j i hjX hiX
  have hii : (M.getD i []).getD i 0 =
      dotL (l2normalize ((tfidfMatrix docs).getD i []))
        (l2normalize ((tfidfMatrix docs).getD i [])) := by
    rw [hM]
    exact cosine_entry _ i i hiX hiX
  have hrowi : (tfidfMatrix docs).getD i [] =
      l2normalize (tfidfVec docs d) := by
    rw [tfidfMatrix_getD docs i (by rw [hlen]; exact hi), hd_eq]
  refine ⟨?_, ?_, ?_, ?_, ?_⟩
  · rw [hM, cosine_length, tfidfMatrix_length, hlen]
  · rw [hM, cosine_row_length _ i hiX, tfidfMatrix_length, hlen]
  · rw [hij, hji]
    exact dotL_comm _ _
  · rw [hii, hrowi]
    by_cases htok : tokenize d = []
    · rw [if_pos htok]
      exact dotL_zero_left (@normRow_all_zero docs d htok) _
    · rw [if_neg htok]
      have hdd : d ∈ docs := by
        rw [← hd_eq, listGetD_eq docs i ("") (by rw [hlen]; exact hi)]
        exact List.getElem_mem _
      exact normRow_diag_one hdd htok
  · by_cases htok : tokenize d = []
    · rw [if_pos htok]
      have hz := @normRow_all_zero docs d htok
      constructor
      · rw [hij, hrowi]
        exact dotL_zero_left hz _
      · rw [hji, hrowi]
        exact dotL_zero_right hz _
    · rw [if_neg htok]
      trivial

/-- C7 witness: the concrete catalog catThe and its built matrix MThe, at
the blank-token movie (row 0) against the other movie (column 1). -/
theorem C7_witness :
    MThe.length = catThe.length ∧
    (MThe.getD 0 []).length = catThe.length ∧
    (MThe.getD 0 []).getD 1 0 = (MThe.getD 1 []).getD 0 0 ∧
    (MThe.getD 0 []).getD 0 0 = (if tokenize docT = [] then (0 : ℝ) else 1) ∧
    (if tokenize docT = [] then
      ((MThe.getD 0 []).getD 1 0 = 0 ∧ (MThe.getD 1 []).getD 0 0 = 0)
    else True) :=
  C7_amended catThe MThe 0 1 docT build_catThe (by decide) (by decide)
    (by decide)

end AW
